import Mathlib

/-!
Verification of the CV rendering core (`frontend/src/components/CVPreview.js`)
of the CV-enhancement web application.

The development shallowly embeds the pure rendering logic of `CVPreview.js`:
language detection (`detectGerman`), label-set selection, skill flattening
(`flattenSkills` / `getSkillCategories`), photo URL resolution
(`resolvePhoto` and the `API_BASE` computation), the per-layout date-range
formatting (clean layout inline code and the shared `_renderExp` helper),
the per-layout section guards and section ordering, custom-section
filtering, and theme/layout branch selection.

Strings model JavaScript strings; absent or undefined string-valued fields
are modelled as the empty string, which JavaScript's truthiness tests (`||`
chains and `&&` guards) treat identically to `undefined` everywhere the
embedded code uses them.  A separate JSON-like `JsVal` model is used for
the dynamic-typing (never-throws) analysis, where method calls on values of
the wrong runtime type raise `TypeError`s, mirrored as `Except` errors.
-/

namespace CVPreview

/- ───────────────── string helpers (JS semantics) ───────────────── -/

/-- Substring containment on character lists: `hasSubstr needle hay` is
`true` iff `needle` occurs contiguously inside `hay`.  Models JavaScript's
`String.prototype.includes`. -/
def hasSubstr : List Char → List Char → Bool
  | n, [] => n.isEmpty
  | n, c :: t => n.isPrefixOf (c :: t) || hasSubstr n t

/-- Models JS `hay.includes(needle)` as `strIncl hay needle`. -/
def strIncl (hay needle : String) : Bool :=
  hasSubstr needle.data hay.data

/-- Lowercasing of one character, covering ASCII letters and the German
umlauts that occur in this component's inputs (JS `toLowerCase` restricted
to the alphabet the marker list uses). -/
def lowerChar (c : Char) : Char :=
  if 'A' ≤ c ∧ c ≤ 'Z' then Char.ofNat (c.toNat + 32)
  else if c = 'Ä' then 'ä'
  else if c = 'Ö' then 'ö'
  else if c = 'Ü' then 'ü'
  else c

/-- Models JS `String.prototype.toLowerCase` (on the relevant alphabet). -/
def jsToLower (s : String) : String :=
  ⟨s.data.map lowerChar⟩

/-- Models JS `s.substring(0, n)` (code-unit truncation; identical to
character truncation for the Basic-Multilingual-Plane text used here). -/
def jsSubstring (s : String) (n : Nat) : String :=
  ⟨s.data.take n⟩

/-- JS `a || b` on strings: empty string is falsy. -/
def jsOrS (a b : String) : String :=
  if a = "" then b else a

/-- Models JS `s.startsWith(p)`. -/
def jsStartsWith (s p : String) : Bool :=
  p.data.isPrefixOf s.data

/-- First-occurrence removal on character lists: result of deleting the
first contiguous occurrence of `pat`, or `none` when `pat` does not occur. -/
def removeFirstSub (pat : List Char) : List Char → Option (List Char)
  | [] => if pat.isEmpty then some [] else none
  | c :: t =>
    if pat.isPrefixOf (c :: t) then some (List.drop pat.length (c :: t))
    else (removeFirstSub pat t).map (c :: ·)

/-- Models JS `s.replace(pat, '')` with a *string* pattern: removes only the
first occurrence of `pat` (the source uses `.replace('/api', '')`). -/
def jsReplaceOnce (s pat : String) : String :=
  match removeFirstSub pat.data s.data with
  | some r => ⟨r⟩
  | none => s

/- ───────────────── language detection ───────────────── -/

/-- The fixed German marker vocabulary (source lines 21–27), verbatim. -/
def GERMAN_MARKERS : List String :=
  ["erfahrung", "kenntnisse", "fähigkeiten", "verantwortlich",
   "unternehmen", "tätigkeiten", "entwicklung", "aufgaben",
   "bereich", "mittels", "wurden", "wurde", "haben",
   "leitung", "planung", "umsetzung", "werkzeug", "arbeit",
   "softwareentwickler", "ingenieur", "datenbankadministrator"]

/-- Experience member as accessed by the renderer. Absent string fields are
the empty string (falsy, as in the JS source). -/
structure Experience where
  role : String := ""
  position : String := ""
  job_title : String := ""
  company : String := ""
  location : String := ""
  startDate : String := ""
  endDate : String := ""
  current : Bool := false
  description : String := ""
deriving DecidableEq, Repr

structure Education where
  degree : String := ""
  field : String := ""
  institution : String := ""
  startDate : String := ""
  endDate : String := ""
  grade : String := ""
deriving DecidableEq, Repr

structure LanguageEntry where
  language : String := ""
  proficiency : String := ""
deriving DecidableEq, Repr

structure Certification where
  name : String := ""
  issuer : String := ""
  issueDate : String := ""
  date : String := ""
deriving DecidableEq, Repr

structure Project where
  name : String := ""
  description : String := ""
  link : String := ""
  url : String := ""
deriving DecidableEq, Repr

/-- Interest entries are either plain strings or objects with a `name`
(or legacy `interest`) field. -/
inductive InterestEntry where
  | str (s : String)
  | obj (name : String) (interest : String)
deriving DecidableEq, Repr

/-- One entry of a skills sequence: a string, an object with an optional
`name` field, or a null/unnamed entry (`s?.name || ''` yields `""`). -/
inductive SkillEntry where
  | str (s : String)
  | obj (name : String)
  | nil
deriving DecidableEq, Repr

/-- The `skills` field: absent/null, a sequence, or a category mapping whose
values may themselves fail to be sequences (`Array.isArray(v)` check);
`none` as a mapping value stands for a non-array value. -/
inductive SkillsVal where
  | undefined
  | list (xs : List SkillEntry)
  | dict (m : List (String × Option (List SkillEntry)))
deriving DecidableEq, Repr

structure CustomSection where
  title : String := ""
  content : String := ""
deriving DecidableEq, Repr

structure PersonalInfo where
  name : String := ""
  title : String := ""
  jobTitle : String := ""
  summary : String := ""
  email : String := ""
  phone : String := ""
  location : String := ""
  linkedin : String := ""
  linkedin_url : String := ""
  website : String := ""
  photo : String := ""
deriving DecidableEq, Repr

/-- The CV document as accessed by `CVPreview`.  `experiences` and the
legacy alias `experience` are `Option`s because JS distinguishes a present
empty array (truthy) from an absent field in the `||` fallback chain of
`detectGerman`; all other collections are only ever defaulted with `|| []`,
where absent and empty are indistinguishable downstream. -/
structure CVDoc where
  personal_info : PersonalInfo := {}
  full_name : String := ""
  title : String := ""
  profile_summary : String := ""
  email : String := ""
  phone : String := ""
  location : String := ""
  linkedin_url : String := ""
  photo_path : String := ""
  experiences : Option (List Experience) := none
  experience : Option (List Experience) := none
  educations : List Education := []
  skills : SkillsVal := .undefined
  certifications : List Certification := []
  languages : List LanguageEntry := []
  projects : List Project := []
  interests : List InterestEntry := []
  hobbies : String := ""
  hobbies_text : String := ""
  custom_sections : List CustomSection := []
deriving DecidableEq, Repr

/-- JS `data.experiences || data.experience || []` (a present empty array is
truthy and stops the chain). -/
def detectExps (d : CVDoc) : List Experience :=
  match d.experiences with
  | some l => l
  | none => d.experience.getD []

/-- The detection sample (source lines 30–36): title/jobTitle, first 400
characters of the summary, first 200 characters of each of the first two
experience descriptions, space-joined and lowercased. -/
def buildSample (d : CVDoc) : String :=
  let pi := d.personal_info
  let s0 := jsOrS pi.title pi.jobTitle ++ " "
  let s1 := s0 ++ jsSubstring (jsOrS pi.summary d.profile_summary) 400 ++ " "
  let s2 := s1 ++ String.join
    (((detectExps d).take 2).map (fun e => jsSubstring e.description 200 ++ " "))
  jsToLower s2

/-- Number of marker words occurring as substrings of the sample. -/
def germanScore (d : CVDoc) : Nat :=
  (GERMAN_MARKERS.filter (fun w => strIncl (buildSample d) w)).length

/-- Embedding of `detectGerman` (source lines 29–39): German iff at least two markers
occur in the sample. -/
def detectGerman (d : CVDoc) : Bool :=
  decide (2 ≤ germanScore d)

/- ───────────────── label sets and section headings ───────────────── -/

/-- The eight semantic section keys. -/
inductive Section where
  | profile | experience | education | skills
  | languages | interests | projects | certifications
deriving DecidableEq, Repr

/-- English label constants (source lines 41–45). -/
def LABELS_EN : Section → String
  | .profile => "Profile"
  | .experience => "Experience"
  | .education => "Education"
  | .skills => "Skills"
  | .languages => "Languages"
  | .interests => "Interests"
  | .projects => "Projects"
  | .certifications => "Certifications"

/-- German label constants (source lines 46–50). -/
def LABELS_DE : Section → String
  | .profile => "Profil"
  | .experience => "Berufserfahrung"
  | .education => "Bildung"
  | .skills => "Fähigkeiten"
  | .languages => "Sprachen"
  | .interests => "Interessen"
  | .projects => "Projekte"
  | .certifications => "Zertifikate"

/-- The five layout branches. -/
inductive Layout where
  | clean | modern | executive | minimal | classic
deriving DecidableEq, Repr

/-- Heading strings hardcoded in the JSX of the modern, executive, minimal
and classic branches and in the shared `_renderExp`/`_renderEdu` helpers
(e.g. source lines 375, 383, 393, 403, 406, 407, 547, 581). -/
def hardcodedHeading : Section → String
  | .profile => "Profile"
  | .experience => "Experience"
  | .education => "Education"
  | .skills => "Skills"
  | .languages => "Languages"
  | .interests => "Interests"
  | .projects => "Projects"
  | .certifications => "Certifications"

/-- The section heading a given layout renders for a given section, given
the detection result: the clean branch uses `L = isGerman ? LABELS_DE :
LABELS_EN` (source lines 154–155, 219–335), every other branch passes the
hardcoded English literals to `SectionTitle`. -/
def sectionHeading (l : Layout) (german : Bool) (s : Section) : String :=
  match l with
  | .clean => if german then LABELS_DE s else LABELS_EN s
  | _ => hardcodedHeading s

/- ───────────────── experience date ranges ───────────────── -/

/-- The clean layout's current-employment label (source line 195). -/
def currentLabelClean (german : Bool) : String :=
  if german then "Heute" else "Present"

/-- The rendered experience date range.  Clean layout (source line 237):
`{exp.startDate}{(exp.startDate && (exp.endDate || exp.current)) ? ' – ' :
''}{exp.current ? currentLabel : exp.endDate}`.  All other layouts render
experiences through `_renderExp` (source line 557), which is identical
except that the current-label is the hardcoded literal `'Present'`. -/
def expDateRange (l : Layout) (german : Bool) (e : Experience) : String :=
  match l with
  | .clean =>
    e.startDate
      ++ (if e.startDate ≠ "" ∧ (e.endDate ≠ "" ∨ e.current) then " – " else "")
      ++ (if e.current then currentLabelClean german else e.endDate)
  | _ =>
    e.startDate
      ++ (if e.startDate ≠ "" ∧ (e.endDate ≠ "" ∨ e.current) then " – " else "")
      ++ (if e.current then "Present" else e.endDate)

/-- The date range the claim predicts: language-sensitive current label in
every layout (stated from the spec's shared-rendering-rules wording, for
comparison against the source-derived `expDateRange`). -/
def claimedDateRange (german : Bool) (e : Experience) : String :=
  e.startDate
    ++ (if e.startDate ≠ "" ∧ (e.endDate ≠ "" ∨ e.current) then " – " else "")
    ++ (if e.current then (if german then "Heute" else "Present") else e.endDate)

/- ───────────────── skills normalization ───────────────── -/

/-- Evaluation of `typeof s === 'string' ? s : s?.name || ''` on one sequence entry. -/
def skillEntryName : SkillEntry → String
  | .str s => s
  | .obj n => n
  | .nil => ""

/-- Embedding of `flattenSkills` (source lines 73–84): sequences map entries to their
display strings and drop falsy ones; mappings flatten all array-valued
categories with the same rule; anything else yields `[]`. -/
def flattenSkills : SkillsVal → List String
  | .undefined => []
  | .list xs => (xs.map skillEntryName).filter (· ≠ "")
  | .dict m =>
    m.flatMap (fun p =>
      match p.2 with
      | some v => (v.map skillEntryName).filter (· ≠ "")
      | none => [])

/-- Embedding of `getSkillCategories` (source lines 87–91): `null` unless the value is a
(non-array) object, in which case the raw mapping is returned — note that
an *empty* mapping is returned as-is (and is truthy in JS). -/
def getSkillCategories : SkillsVal → Option (List (String × Option (List SkillEntry)))
  | .undefined => none
  | .list _ => none
  | .dict m => some m

/-- Items rendered for one category row (source line 174). -/
def categoryItems (v : Option (List SkillEntry)) : List String :=
  match v with
  | some xs => (xs.map skillEntryName).filter (· ≠ "")
  | none => []

/- ───────────────── photo URL resolution ───────────────── -/

/-- Embedding of `API_BASE` (source line 11):
`process.env.REACT_APP_API_URL?.replace('/api', '') || 'http://localhost:8000'`.
The input is the configured environment value (`none` = unset); note
`String.prototype.replace` with a string pattern removes only the *first*
occurrence of `/api`, wherever it is. -/
def computeApiBase : Option String → String
  | none => "http://localhost:8000"
  | some u =>
    let r := jsReplaceOnce u "/api"
    if r = "" then "http://localhost:8000" else r

/-- The claim's description of `API_BASE`: the configured value with a
*trailing* `/api` suffix removed (stated from the spec's wording, for
comparison against the source-derived `computeApiBase`). -/
def claimedApiBase : Option String → String
  | none => "http://localhost:8000"
  | some u =>
    let r :=
      if "/api".data.isSuffixOf u.data then ⟨u.data.take (u.data.length - 4)⟩ else u
    if r = "" then "http://localhost:8000" else r

/-- JS `photo.replace(/^\//, '')`: strip one leading slash. -/
def dropLeadingSlash (s : String) : String :=
  if jsStartsWith s "/" then s.drop 1 else s

/-- Embedding of `resolvePhoto` (source lines 64–70), parameterized by the `API_BASE`
constant; `none` models the `null` returned for falsy input. -/
def resolvePhoto (apiBase photo : String) : Option String :=
  if photo = "" then none
  else if jsStartsWith photo "/uploads/" || jsStartsWith photo "uploads/" then
    some (apiBase ++ "/" ++ dropLeadingSlash photo)
  else some photo

/- ───────────────── theme merging and layout selection ───────────────── -/

/-- The `layout` property of the theme prop object: absent key, key present
with value `undefined`, or a string value.  JS object spread
`{...DEFAULT_THEME, ...themeProp}` copies a present-but-`undefined` key,
overriding the default. -/
inductive LayoutProp where
  | absent
  | undefined
  | str (s : String)
deriving DecidableEq, Repr

/-- The merged `theme.layout` after `{...DEFAULT_THEME, ...themeProp}`
(source line 125, `DEFAULT_THEME.layout = 'clean'` at line 16). -/
def mergedLayout : LayoutProp → Option String
  | .absent => some "clean"
  | .undefined => none
  | .str s => some s

/-- The branch chosen by the `if (theme.layout === 'clean') ... if
('modern') ... if ('executive') ... if ('minimal') ...` chain, with the
classic layout as the fall-through default (source lines 194, 360, 414,
458, 500). -/
def selectBranch : Option String → Layout
  | some s =>
    if s = "clean" then .clean
    else if s = "modern" then .modern
    else if s = "executive" then .executive
    else if s = "minimal" then .minimal
    else .classic
  | none => .classic

/- ───────────────── section guards and ordering ───────────────── -/

/-- Evaluation of `data.experiences || []` (source line 133; rendering, unlike detection,
never consults the legacy `experience` alias). -/
def renderExps (d : CVDoc) : List Experience :=
  d.experiences.getD []

/-- Evaluation of `pi.summary || data.profile_summary || ''` (source line 144). -/
def summaryOf (d : CVDoc) : String :=
  jsOrS d.personal_info.summary d.profile_summary

/-- Evaluation of `data.hobbies || data.hobbies_text || ''` (source line 142). -/
def hobbiesOf (d : CVDoc) : String :=
  jsOrS d.hobbies d.hobbies_text

/-- Whether a layout renders the heading/container of a given standard
section, transcribing the guard of each branch:
profile `summary && ...`; experience `experiences.length > 0` (clean) /
`!experiences.length → null` (`_renderExp`); education likewise; skills
`(skills.length > 0 || skillCategories)` in the clean (line 277) and
executive (line 432) branches but `skills.length > 0` in modern (373),
minimal (477) and classic (519); languages `langs.length > 0`; interests
`(interests.length > 0 || hobbies)`; projects and certifications by
length. -/
def sectionShown (l : Layout) (d : CVDoc) : Section → Bool
  | .profile => summaryOf d ≠ ""
  | .experience => (renderExps d).length > 0
  | .education => d.educations.length > 0
  | .skills =>
    match l with
    | .clean | .executive =>
      (flattenSkills d.skills).length > 0 || (getSkillCategories d.skills).isSome
    | _ => (flattenSkills d.skills).length > 0
  | .languages => d.languages.length > 0
  | .interests => d.interests.length > 0 || hobbiesOf d ≠ ""
  | .projects => d.projects.length > 0
  | .certifications => d.certifications.length > 0

/-- The custom-section entries a layout renders:
`customSections.filter(cs => cs.title && cs.content)` in the clean (source
line 349), minimal (line 489) and classic (line 531) branches; the modern
and executive branches contain no custom-section code at all. -/
def customRendered (l : Layout) (d : CVDoc) : List CustomSection :=
  match l with
  | .clean | .minimal | .classic =>
    d.custom_sections.filter (fun cs => cs.title ≠ "" ∧ cs.content ≠ "")
  | .modern | .executive => []

/-- One element of a layout's rendered section sequence. -/
inductive RS where
  | std (s : Section)
  | custom (cs : CustomSection)
deriving DecidableEq, Repr

def isCustomRS : RS → Bool
  | .std _ => false
  | .custom _ => true

/-- A guarded standard-section block (`cond && <section>` in JSX). -/
def stdBlock (b : Bool) (s : Section) : List RS :=
  if b then [.std s] else []

/-- The ordered sequence of section blocks each layout emits, transcribed
from the JSX order of each branch (clean: lines 217–354; modern: 362–408,
sidebar before main; executive: 417–451, left column before right; minimal:
460–494; classic: 501–536).  Custom-section blocks appear exactly where the
JSX places them: after every other section in clean, minimal and classic,
and nowhere in modern and executive. -/
def layoutSections (l : Layout) (d : CVDoc) : List RS :=
  let g := sectionShown l d
  match l with
  | .clean =>
    stdBlock (g .profile) .profile ++ stdBlock (g .experience) .experience
      ++ stdBlock (g .education) .education ++ stdBlock (g .skills) .skills
      ++ stdBlock (g .languages) .languages ++ stdBlock (g .interests) .interests
      ++ stdBlock (g .projects) .projects
      ++ stdBlock (g .certifications) .certifications
      ++ (customRendered .clean d).map RS.custom
  | .modern =>
    stdBlock (g .skills) .skills ++ stdBlock (g .languages) .languages
      ++ stdBlock (g .interests) .interests ++ stdBlock (g .profile) .profile
      ++ stdBlock (g .experience) .experience
      ++ stdBlock (g .education) .education
      ++ stdBlock (g .certifications) .certifications
      ++ stdBlock (g .projects) .projects
  | .executive =>
    stdBlock (g .skills) .skills ++ stdBlock (g .languages) .languages
      ++ stdBlock (g .interests) .interests
      ++ stdBlock (g .certifications) .certifications
      ++ stdBlock (g .profile) .profile
      ++ stdBlock (g .experience) .experience
      ++ stdBlock (g .education) .education ++ stdBlock (g .projects) .projects
  | .minimal =>
    stdBlock (g .profile) .profile ++ stdBlock (g .experience) .experience
      ++ stdBlock (g .education) .education ++ stdBlock (g .skills) .skills
      ++ stdBlock (g .languages) .languages ++ stdBlock (g .interests) .interests
      ++ stdBlock (g .certifications) .certifications
      ++ stdBlock (g .projects) .projects
      ++ (customRendered .minimal d).map RS.custom
  | .classic =>
    stdBlock (g .profile) .profile ++ stdBlock (g .experience) .experience
      ++ stdBlock (g .education) .education ++ stdBlock (g .skills) .skills
      ++ stdBlock (g .languages) .languages ++ stdBlock (g .interests) .interests
      ++ stdBlock (g .certifications) .certifications
      ++ stdBlock (g .projects) .projects
      ++ (customRendered .classic d).map RS.custom

/-- The claim's notion of "backing collection is empty or absent" per
section: empty resolved summary for profile; empty/absent sequence for the
list-backed sections (with the hobbies fallback counted as part of the
interests backing, as the spec's data model describes); for skills, an
absent/null value, an empty sequence or an empty mapping. -/
def backingEmpty (d : CVDoc) : Section → Bool
  | .profile => summaryOf d = ""
  | .experience => (renderExps d).isEmpty
  | .education => d.educations.isEmpty
  | .skills =>
    match d.skills with
    | .undefined => true
    | .list xs => xs.isEmpty
    | .dict m => m.isEmpty
  | .languages => d.languages.isEmpty
  | .interests => d.interests.isEmpty && hobbiesOf d = ""
  | .projects => d.projects.isEmpty
  | .certifications => d.certifications.isEmpty

/-- Whether the skills value is a category mapping. -/
def skillsIsDict : SkillsVal → Bool
  | .dict _ => true
  | _ => false

/- ───────────────── dynamic (JSON-like) model ─────────────────
The never-throws analysis needs JavaScript's runtime typing: property
access on `null`/`undefined` and method calls on values lacking the method
raise `TypeError`s.  `JsVal` is a JSON-like value; fallible evaluation is
`Except String`. -/

inductive JsVal where
  | null
  | undefined
  | str (s : String)
  | num (n : Int)
  | bool (b : Bool)
  | arr (xs : List JsVal)
  | obj (fields : List (String × JsVal))

/-- JS truthiness (integral numbers; NaN not modelled). -/
def truthy : JsVal → Bool
  | .null => false
  | .undefined => false
  | .str s => s ≠ ""
  | .num n => n ≠ 0
  | .bool b => b
  | .arr _ => true
  | .obj _ => true

/-- Field lookup inside an object's field list (`undefined` when missing). -/
def objGet (fs : List (String × JsVal)) (k : String) : JsVal :=
  match fs.find? (fun p => p.1 = k) with
  | some p => p.2
  | none => .undefined

/-- JS property access `v[k]`: throws on `null`/`undefined` bases, yields
`undefined` on primitive bases, looks up the key on objects. -/
def jsGet (v : JsVal) (k : String) : Except String JsVal :=
  match v with
  | .null => .error "TypeError: cannot read properties of null"
  | .undefined => .error "TypeError: cannot read properties of undefined"
  | .obj fs => .ok (objGet fs k)
  | _ => .ok .undefined

/-- JS `a || b`. -/
def jsOrV (a b : JsVal) : JsVal :=
  if truthy a then a else b

/- JS string coercion (`'' + v`), mutually with the element coercion used
inside array joining, where `null`/`undefined` elements become empty. -/
mutual
def jsToStrV : JsVal → String
  | .null => "null"
  | .undefined => "undefined"
  | .str s => s
  | .num n => toString n
  | .bool b => if b then "true" else "false"
  | .obj _ => "[object Object]"
  | .arr xs => String.intercalate "," (jsToStrList xs)
def jsToStrList : List JsVal → List String
  | [] => []
  | .null :: t => "" :: jsToStrList t
  | .undefined :: t => "" :: jsToStrList t
  | x :: t => jsToStrV x :: jsToStrList t
end

/-- JS `v.substring(0, n)`: only strings have the method. -/
def jsSubstringV (v : JsVal) (n : Nat) : Except String String :=
  match v with
  | .str s => .ok (jsSubstring s n)
  | _ => .error "TypeError: v.substring is not a function"

/-- Evaluation of `exps.slice(0, 2).forEach(...)` (source line 35): arrays slice and
iterate; any other truthy value lacks `slice` (or, for strings, `forEach`)
and throws. -/
def jsFirstTwo (v : JsVal) : Except String (List JsVal) :=
  match v with
  | .arr xs => .ok (xs.take 2)
  | _ => .error "TypeError: exps.slice(0,2).forEach is not a function"

/-- The `forEach` body of `detectGerman` (source line 35), element by
element: `sample += (e.description || '').substring(0, 200) + ' '`,
left-to-right, stopping at the first `TypeError`. -/
def descsOf : List JsVal → Except String (List String)
  | [] => .ok []
  | e :: t => do
    let dv ← jsGet e "description"
    let s ← jsSubstringV (jsOrV dv (.str "")) 200
    let r ← descsOf t
    return s :: r

/-- Embedding of `detectGerman` over dynamic values (source lines 29–39), with each JS
operation's throwing behaviour made explicit. -/
def detectGermanDyn (data : JsVal) : Except String Bool := do
  let pi0 ← jsGet data "personal_info"
  let pi := jsOrV pi0 (.obj [])
  let t1 ← jsGet pi "title"
  let t2 ← jsGet pi "jobTitle"
  let titleV := jsOrV (jsOrV t1 t2) (.str "")
  let s1 ← jsGet pi "summary"
  let s2 ← jsGet data "profile_summary"
  let sum400 ← jsSubstringV (jsOrV (jsOrV s1 s2) (.str "")) 400
  let e1 ← jsGet data "experiences"
  let e2 ← jsGet data "experience"
  let elems ← jsFirstTwo (jsOrV (jsOrV e1 e2) (.arr []))
  let descs ← descsOf elems
  let sample := jsToLower (jsToStrV titleV ++ " " ++ sum400 ++ " "
    ++ String.join (descs.map (· ++ " ")))
  return decide (2 ≤ (GERMAN_MARKERS.filter (fun w => strIncl sample w)).length)

/-- Embedding of `resolvePhoto` over dynamic values: falsy input yields `null`; truthy
non-strings lack `startsWith` and throw (source lines 64–70). -/
def resolvePhotoDyn (apiBase : String) (v : JsVal) : Except String (Option String) :=
  if truthy v then
    match v with
    | .str s => .ok (resolvePhoto apiBase s)
    | _ => .error "TypeError: photo.startsWith is not a function"
  else .ok none

/-- One sequence entry, dynamically: `typeof s === 'string' ? s : s?.name
|| ''` — optional chaining makes `s?.name` `undefined` for `null` and for
primitives, then `|| ''` applies. -/
def dynEntryVal : JsVal → JsVal
  | .str t => .str t
  | .obj fs => jsOrV (objGet fs "name") (.str "")
  | _ => .str ""

/-- Embedding of `flattenSkills` over dynamic values (source lines 73–84): total — the
only member accesses are the optional-chained `s?.name`.  Entries surviving
`filter(Boolean)` keep their runtime type. -/
def flattenSkillsDyn : JsVal → List JsVal
  | .arr xs => (xs.map dynEntryVal).filter truthy
  | .obj fs =>
    fs.flatMap (fun p =>
      match p.2 with
      | .arr v => (v.map dynEntryVal).filter truthy
      | _ => [])
  | _ => []

/-- The normalized view computed by the component prelude (source lines
131–161) that the rest of the render consumes. -/
structure NormView where
  name : JsVal
  title : JsVal
  summary : JsVal
  email : JsVal
  phone : JsVal
  location : JsVal
  linkedin : JsVal
  website : JsVal
  photo : Option String
  skillsFlat : List JsVal
  hasSkillCats : Bool
  hobbies : JsVal
  german : Bool

/-- The component prelude (source lines 131–161) over a dynamic document:
field resolution with `||` fallback chains, photo resolution, skill
flattening and language detection, in source order. -/
def normalizeDyn (data : JsVal) (apiBase : String) : Except String NormView := do
  let pi0 ← jsGet data "personal_info"
  let pi := jsOrV pi0 (.obj [])
  let ph1 ← jsGet pi "photo"
  let ph2 ← jsGet data "photo_path"
  let photo ← resolvePhotoDyn apiBase (jsOrV ph1 ph2)
  let skillsV ← jsGet data "skills"
  let s1 ← jsGet pi "summary"
  let s2 ← jsGet data "profile_summary"
  let summary := jsOrV (jsOrV s1 s2) (.str "")
  let n1 ← jsGet pi "name"
  let n2 ← jsGet data "full_name"
  let name := jsOrV (jsOrV n1 n2) (.str "")
  let t1 ← jsGet pi "title"
  let t2 ← jsGet pi "jobTitle"
  let t3 ← jsGet data "title"
  let title := jsOrV (jsOrV (jsOrV t1 t2) t3) (.str "")
  let m1 ← jsGet pi "email"
  let m2 ← jsGet data "email"
  let email := jsOrV (jsOrV m1 m2) (.str "")
  let p1 ← jsGet pi "phone"
  let p2 ← jsGet data "phone"
  let phone := jsOrV (jsOrV p1 p2) (.str "")
  let lo1 ← jsGet pi "location"
  let lo2 ← jsGet data "location"
  let location := jsOrV (jsOrV lo1 lo2) (.str "")
  let li1 ← jsGet pi "linkedin"
  let li2 ← jsGet pi "linkedin_url"
  let li3 ← jsGet data "linkedin_url"
  let linkedin := jsOrV (jsOrV (jsOrV li1 li2) li3) (.str "")
  let w1 ← jsGet pi "website"
  let website := jsOrV w1 (.str "")
  let h1 ← jsGet data "hobbies"
  let h2 ← jsGet data "hobbies_text"
  let hobbies := jsOrV (jsOrV h1 h2) (.str "")
  let german ← detectGermanDyn data
  return { name := name, title := title, summary := summary, email := email,
           phone := phone, location := location, linkedin := linkedin,
           website := website, photo := photo,
           skillsFlat := flattenSkillsDyn skillsV,
           hasSkillCats :=
             (match skillsV with
              | .obj _ => true
              | _ => false),
           hobbies := hobbies, german := german }

/-- The name every layout's header prints: `{name || 'Your Name'}` (source
lines 202, 366, 420, 464, 505). -/
def renderedNameDyn (nv : NormView) : String :=
  jsToStrV (jsOrV nv.name (.str "Your Name"))

/-- A text-valued field position is safe when absent, `null`, `undefined`
or a string. -/
def strOrFalsyV : JsVal → Bool
  | .str _ => true
  | .null => true
  | .undefined => true
  | _ => false

/-- Well-formed experience element: an object whose `description` is a
string or absent. -/
def expElemOK : JsVal → Bool
  | .obj efs => strOrFalsyV (objGet efs "description")
  | _ => false

/-- Well-formed experiences value: absent, `null` or an array of
well-formed elements. -/
def expsValOK : JsVal → Bool
  | .null => true
  | .undefined => true
  | .arr xs => xs.all expElemOK
  | _ => false

/-- Well-formed `personal_info`: absent, `null` or an object whose
text-valued fields used by the prelude are strings or absent. -/
def piValOK : JsVal → Bool
  | .null => true
  | .undefined => true
  | .obj pfs =>
    strOrFalsyV (objGet pfs "summary") && strOrFalsyV (objGet pfs "photo")
      && strOrFalsyV (objGet pfs "title") && strOrFalsyV (objGet pfs "jobTitle")
  | _ => false

/-- Well-formed dynamic document: an object whose `personal_info`,
summary/photo text fields and experience collections have recognized
shapes; every other field (including `skills`) is unconstrained. -/
def wfDoc : JsVal → Bool
  | .obj fs =>
    piValOK (objGet fs "personal_info")
      && strOrFalsyV (objGet fs "profile_summary")
      && strOrFalsyV (objGet fs "photo_path")
      && expsValOK (objGet fs "experiences")
      && expsValOK (objGet fs "experience")
  | _ => false

/-- Whether an `Except` computation returned normally. -/
def isOkE {α : Type} : Except String α → Bool
  | .ok _ => true
  | .error _ => false

/- ───────────────── concrete test documents ───────────────── -/

/-- A document whose summary contains three German markers
("verantwortlich", "entwicklung", "leitung"). -/
def gdocDE : CVDoc :=
  { personal_info := { summary := "verantwortlich für die Entwicklung und Leitung" } }

/-- A document matching no German marker. -/
def docNoMarker : CVDoc :=
  { personal_info := { summary := "Built web apps with React and Node" } }

/-- A document matching exactly one German marker. -/
def docOneMarker : CVDoc :=
  { personal_info := { summary := "verantwortlich" } }

/-- A document whose sample contains the single word "wurden". -/
def docWurden : CVDoc :=
  { personal_info := { summary := "wurden" } }

/-- A currently-held position started in January 2022. -/
def expCurrent2022 : Experience := { startDate := "2022-01", current := true }

/-- A document whose skills value is a present-but-empty category mapping. -/
def docEmptySkillsDict : CVDoc := { skills := .dict [] }

/-- A document with one fully-populated custom section. -/
def docCustomXY : CVDoc := { custom_sections := [{ title := "X", content := "Y" }] }

/-- All eight section keys. -/
def allSections : List Section :=
  [.profile, .experience, .education, .skills,
   .languages, .interests, .projects, .certifications]

/-- The German label set as a list of display strings. -/
def germanLabelList : List String := allSections.map LABELS_DE

/-- The English label set as a list of display strings. -/
def englishLabelList : List String := allSections.map LABELS_EN

/-- A dynamic document whose `personal_info.summary` is a number: the
`(pi.summary || data.profile_summary || '').substring(0, 400)` call in
`detectGerman` then invokes `substring` on a number. -/
def dBadSummary : JsVal := .obj [("personal_info", .obj [("summary", .num 42)])]

/-- A well-formed dynamic document mixing absent, null and string fields. -/
def dGoodExample : JsVal :=
  .obj [("full_name", .null), ("skills", .null),
        ("experiences", .arr [.obj [("description", .str "Built stuff")]]),
        ("personal_info", .obj [("summary", .str "Hello")])]

/-- The normalized view of the empty dynamic document `{}`. -/
def emptyDocView : NormView :=
  { name := .str "", title := .str "", summary := .str "", email := .str "",
    phone := .str "", location := .str "", linkedin := .str "",
    website := .str "", photo := none, skillsFlat := [],
    hasSkillCats := false, hobbies := .str "", german := false }

/- ═══════════════════ theorems ═══════════════════ -/

/-- C2: language detection counts how many of the fixed German markers
occur as substrings of the lowercase sample built from the title/job-title
field, the first 400 characters of the summary and the first 200 characters
of each of the first two experience descriptions, and classifies the
document as German exactly when that count is at least 2; the
"verantwortlich für die Entwicklung und Leitung" document is German, a
document with no marker is English, and a document with exactly one marker
is English. -/
theorem detectGerman_spec :
    (∀ d : CVDoc, detectGerman d =
      decide (2 ≤ (GERMAN_MARKERS.filter (fun w => strIncl (buildSample d) w)).length))
    ∧ detectGerman gdocDE = true
    ∧ germanScore docNoMarker = 0 ∧ detectGerman docNoMarker = false
    ∧ germanScore docOneMarker = 1 ∧ detectGerman docOneMarker = false :=
  ⟨fun _ => rfl, by decide, by decide, by decide, by decide, by decide⟩

/-- C10: the marker list contains both "wurde" and "wurden", so the sample
of a document whose summary is the single word "wurden" matches two
distinct markers by substring containment and the document is classified as
German. -/
theorem wurden_double_counted :
    "wurden" ∈ GERMAN_MARKERS ∧ "wurde" ∈ GERMAN_MARKERS
    ∧ buildSample docWurden = " wurden "
    ∧ germanScore docWurden = 2
    ∧ detectGerman docWurden = true := by
  refine ⟨by decide, by decide, by decide, by decide, by decide⟩

/-- C1 counterexample: a German-detected document with a current position
renders "2022-01 – Present", not the claimed "2022-01 – Heute", in the
classic layout (and any other non-clean layout), because `_renderExp`
hardcodes the literal `'Present'`. -/
theorem dateRange_counterexample :
    detectGerman gdocDE = true
    ∧ expDateRange Layout.classic (detectGerman gdocDE) expCurrent2022 = "2022-01 – Present"
    ∧ claimedDateRange (detectGerman gdocDE) expCurrent2022 = "2022-01 – Heute"
    ∧ expDateRange Layout.classic (detectGerman gdocDE) expCurrent2022
        ≠ claimedDateRange (detectGerman gdocDE) expCurrent2022 := by
  refine ⟨by decide, by decide, by decide, by decide⟩

/-- C1 amended: in every layout the rendered date range is the start date,
the " – " separator exactly when the start date is non-empty and (the end
date is non-empty or `current` is true), then the end label; the end label
for a current position is language-sensitive ("Heute" for German) only in
the clean layout, and the hardcoded "Present" in the four other layouts; an
entry with only an end date renders it alone with no separator. -/
theorem dateRange_amended :
    (∀ (l : Layout) (g : Bool) (e : Experience),
      expDateRange l g e =
        e.startDate
          ++ (if e.startDate ≠ "" ∧ (e.endDate ≠ "" ∨ e.current) then " – " else "")
          ++ (if e.current then (if l = Layout.clean ∧ g then "Heute" else "Present")
              else e.endDate))
    ∧ expDateRange Layout.clean true expCurrent2022 = "2022-01 – Heute"
    ∧ expDateRange Layout.clean false expCurrent2022 = "2022-01 – Present"
    ∧ (∀ l : Layout, ∀ g : Bool, expDateRange l g { endDate := "2020-05" } = "2020-05") := by
  refine ⟨?_, by decide, by decide, ?_⟩
  · intro l g e
    cases l <;> cases g <;> simp [expDateRange, currentLabelClean]
  · intro l g
    cases l <;> cases g <;> decide

/-- C3 counterexample: a German-detected document rendered in the modern
layout gets the hardcoded English heading "Experience", not a heading from
the German label set, because every non-clean branch passes hardcoded
English literals to `SectionTitle`. -/
theorem heading_counterexample :
    detectGerman gdocDE = true
    ∧ sectionHeading Layout.modern (detectGerman gdocDE) Section.experience = "Experience"
    ∧ LABELS_DE Section.experience = "Berufserfahrung"
    ∧ sectionHeading Layout.modern (detectGerman gdocDE) Section.experience
        ∉ germanLabelList := by
  refine ⟨by decide, by decide, by decide, by decide⟩

/-- C3 amended: only the clean layout draws its section headings from the
detected label set, wholesale and without mixing (all-German for a
German-detected document, all-English otherwise); the modern, executive,
minimal and classic layouts always render the hardcoded English headings
regardless of the detected language. -/
theorem heading_amended :
    (∀ (g : Bool) (s : Section),
      sectionHeading Layout.clean g s = (if g then LABELS_DE s else LABELS_EN s))
    ∧ (∀ (l : Layout) (g : Bool) (s : Section),
      sectionHeading l g s
        ∈ (if l = Layout.clean ∧ g then germanLabelList else englishLabelList)) := by
  refine ⟨fun _ _ => rfl, ?_⟩
  intro l g s
  cases l <;> cases g <;> cases s <;> decide

/-- C4: the three input shapes `["Go","Rust"]`, `[{name:"Go"},{name:"Rust"}]`
and `{"Languages":["Go","Rust"]}` all flatten to `["Go","Rust"]`; falsy
sequence entries are dropped; only the mapping shape yields a category
grouping, whose single category "Languages" renders both skills. -/
theorem flattenSkills_shapes :
    flattenSkills (.list [.str "Go", .str "Rust"]) = ["Go", "Rust"]
    ∧ flattenSkills (.list [.obj "Go", .obj "Rust"]) = ["Go", "Rust"]
    ∧ flattenSkills (.dict [("Languages", some [.str "Go", .str "Rust"])]) = ["Go", "Rust"]
    ∧ (∀ xs : List SkillEntry,
        flattenSkills (.list xs) = (xs.map skillEntryName).filter (· ≠ ""))
    ∧ flattenSkills (.list [.str "Go", .nil, .str "", .obj "Rust"]) = ["Go", "Rust"]
    ∧ getSkillCategories (.list [.str "Go", .str "Rust"]) = none
    ∧ getSkillCategories (.list [.obj "Go", .obj "Rust"]) = none
    ∧ getSkillCategories (.dict [("Languages", some [.str "Go", .str "Rust"])])
        = some [("Languages", some [.str "Go", .str "Rust"])]
    ∧ categoryItems (some [.str "Go", .str "Rust"]) = ["Go", "Rust"] :=
  ⟨by decide, by decide, by decide, fun _ => rfl, by decide, by decide, by decide,
   by decide, by decide⟩

/-- C5 counterexample: `API_BASE` removes the *first* occurrence of "/api"
from the configured value, not a trailing suffix: the configured origin
"http://api.example.com" (which the claim's own example uses, and which has
no trailing "/api") is mangled to "http:/.example.com", and an uploads path
then resolves against the mangled base. -/
theorem apiBase_counterexample :
    computeApiBase (some "http://api.example.com") = "http:/.example.com"
    ∧ claimedApiBase (some "http://api.example.com") = "http://api.example.com"
    ∧ computeApiBase (some "http://api.example.com")
        ≠ claimedApiBase (some "http://api.example.com")
    ∧ resolvePhoto (computeApiBase (some "http://api.example.com")) "/uploads/photo.png"
        = some "http:/.example.com/uploads/photo.png" := by
  refine ⟨by decide, by decide, by decide, by decide⟩

/-- C5 amended: photo values starting with "/uploads/" or "uploads/" are
rewritten to `API_BASE ++ "/" ++` the value with a leading slash stripped,
and every other non-empty value passes through unchanged; the claimed
example resolutions hold for the base string "http://api.example.com"
itself; `API_BASE` is the configured value with the *first* occurrence of
"/api" removed (which equals trailing-suffix stripping when "/api" occurs
only at the end, as in "http://localhost:8000/api"), defaulting to
"http://localhost:8000" when unset. -/
theorem resolvePhoto_amended :
    (∀ base p : String,
      resolvePhoto base p =
        (if p = "" then none
         else if jsStartsWith p "/uploads/" || jsStartsWith p "uploads/" then
           some (base ++ "/" ++ dropLeadingSlash p)
         else some p))
    ∧ resolvePhoto "http://api.example.com" "/uploads/photo.png"
        = some "http://api.example.com/uploads/photo.png"
    ∧ (∀ base : String,
        resolvePhoto base "https://cdn.example.com/x.png"
          = some "https://cdn.example.com/x.png")
    ∧ computeApiBase none = "http://localhost:8000"
    ∧ computeApiBase (some "http://localhost:8000/api") = "http://localhost:8000"
    ∧ (∀ u : String,
        computeApiBase (some u) =
          (if jsReplaceOnce u "/api" = "" then "http://localhost:8000"
           else jsReplaceOnce u "/api")) := by
  refine ⟨fun _ _ => rfl, by decide, ?_, by decide, by decide, fun _ => rfl⟩
  intro base
  rw [resolvePhoto, if_neg (by decide), if_neg (by decide)]

/- helper lemmas about rendered section sequences -/

theorem mem_stdBlock {b : Bool} {s' s : Section} :
    RS.std s ∈ stdBlock b s' ↔ (b = true ∧ s = s') := by
  cases b <;> simp [stdBlock]

theorem filter_stdBlock (b : Bool) (s : Section) :
    (stdBlock b s).filter isCustomRS = [] := by
  cases b <;> simp [stdBlock, isCustomRS]

theorem filter_map_custom (cs : List CustomSection) :
    (cs.map RS.custom).filter isCustomRS = cs.map RS.custom := by
  induction cs with
  | nil => rfl
  | cons c t ih => simp [isCustomRS, ih]

/-- A standard-section heading appears in a layout's output exactly when
that layout's guard for the section holds. -/
theorem mem_layoutSections (l : Layout) (d : CVDoc) (s : Section) :
    RS.std s ∈ layoutSections l d ↔ sectionShown l d s = true := by
  cases l <;> simp only [layoutSections, List.mem_append, mem_stdBlock] <;>
    cases s <;> simp

/-- C6 counterexample: a document whose skills value is a present-but-empty
category mapping (`skills = {}`) has an empty backing collection for the
skills section, yet the clean layout renders the skills heading, because
`getSkillCategories` returns the empty mapping and any mapping is truthy. -/
theorem emptySection_counterexample :
    backingEmpty docEmptySkillsDict Section.skills = true
    ∧ sectionShown Layout.clean docEmptySkillsDict Section.skills = true
    ∧ RS.std Section.skills ∈ layoutSections Layout.clean docEmptySkillsDict := by
  refine ⟨by decide, by decide, by decide⟩

/-- C6 amended: when a section's backing collection is empty or absent its
heading is omitted in every layout, with one exception: a
present-but-empty skills *mapping* still renders the skills heading in the
clean and executive layouts (whose guards also accept any category
mapping); a section heading appears in a layout's output exactly when the
layout's guard holds, and no custom-section block is emitted when the
custom-section collection is empty. -/
theorem emptySection_amended :
    (∀ (d : CVDoc) (l : Layout) (s : Section),
      backingEmpty d s = true →
        sectionShown l d s =
          (decide (s = Section.skills) && skillsIsDict d.skills
            && (decide (l = Layout.clean) || decide (l = Layout.executive))))
    ∧ (∀ (l : Layout) (d : CVDoc) (s : Section),
        RS.std s ∈ layoutSections l d ↔ sectionShown l d s = true)
    ∧ (∀ (d : CVDoc) (l : Layout),
        d.custom_sections = [] → customRendered l d = []) := by
  refine ⟨?_, mem_layoutSections, ?_⟩
  · intro d l s h
    cases s
    case profile =>
      simp only [backingEmpty, decide_eq_true_eq] at h
      simp [sectionShown, h]
    case experience =>
      simp only [backingEmpty, List.isEmpty_iff] at h
      simp [sectionShown, h]
    case education =>
      simp only [backingEmpty, List.isEmpty_iff] at h
      simp [sectionShown, h]
    case skills =>
      cases hsk : d.skills with
      | undefined =>
        cases l <;>
          simp [sectionShown, hsk, flattenSkills, getSkillCategories, skillsIsDict]
      | list xs =>
        rw [backingEmpty, hsk] at h
        simp only [List.isEmpty_iff] at h
        subst h
        cases l <;>
          simp [sectionShown, hsk, flattenSkills, getSkillCategories, skillsIsDict]
      | dict m =>
        rw [backingEmpty, hsk] at h
        simp only [List.isEmpty_iff] at h
        subst h
        cases l <;>
          simp [sectionShown, hsk, flattenSkills, getSkillCategories, skillsIsDict]
    case languages =>
      simp only [backingEmpty, List.isEmpty_iff] at h
      simp [sectionShown, h]
    case interests =>
      simp only [backingEmpty, Bool.and_eq_true, List.isEmpty_iff,
        decide_eq_true_eq] at h
      simp [sectionShown, h.1, h.2]
    case projects =>
      simp only [backingEmpty, List.isEmpty_iff] at h
      simp [sectionShown, h]
    case certifications =>
      simp only [backingEmpty, List.isEmpty_iff] at h
      simp [sectionShown, h]
  · intro d l h
    cases l <;> simp [customRendered, h]

theorem emptySection_amended_witness :
    backingEmpty ({} : CVDoc) Section.languages = true
    ∧ sectionShown Layout.classic ({} : CVDoc) Section.languages
        = (decide (Section.languages = Section.skills)
            && skillsIsDict ({} : CVDoc).skills
            && (decide (Layout.classic = Layout.clean)
                || decide (Layout.classic = Layout.executive))) :=
  ⟨by decide,
   emptySection_amended.1 {} Layout.classic Section.languages (by decide)⟩

/-- C7 counterexample: the classic (default) branch also renders custom
sections — a document with one fully-populated custom section gets it
rendered in the classic layout, contradicting "exactly the clean and
minimal layouts and no other". -/
theorem custom_counterexample :
    customRendered Layout.classic docCustomXY = [{ title := "X", content := "Y" }]
    ∧ Layout.classic ≠ Layout.clean ∧ Layout.classic ≠ Layout.minimal
    ∧ RS.custom { title := "X", content := "Y" }
        ∈ layoutSections Layout.classic docCustomXY := by
  refine ⟨by decide, by decide, by decide, by decide⟩

/-- C7 amended: custom sections are rendered by exactly the clean, minimal
and classic layouts and by no other; wherever rendered, entries missing a
non-empty title or non-empty content are skipped, the kept entries preserve
their original document order (they form a sublist of the input), and they
render after all other sections (the custom blocks are exactly the
custom-typed suffix of the layout's section sequence). -/
theorem custom_amended :
    (∀ d : CVDoc, customRendered Layout.modern d = [])
    ∧ (∀ d : CVDoc, customRendered Layout.executive d = [])
    ∧ (∀ (l : Layout) (d : CVDoc),
        customRendered l d =
          (if l = Layout.modern ∨ l = Layout.executive then []
           else d.custom_sections.filter (fun cs => cs.title ≠ "" ∧ cs.content ≠ "")))
    ∧ (∀ (l : Layout) (d : CVDoc),
        List.Sublist (customRendered l d) d.custom_sections)
    ∧ (∀ (l : Layout) (d : CVDoc),
        List.IsSuffix ((customRendered l d).map RS.custom) (layoutSections l d))
    ∧ (∀ (l : Layout) (d : CVDoc),
        (layoutSections l d).filter isCustomRS = (customRendered l d).map RS.custom) := by
  refine ⟨fun _ => rfl, fun _ => rfl, ?_, ?_, ?_, ?_⟩
  · intro l d
    cases l <;> simp [customRendered]
  · intro l d
    cases l <;> simp [customRendered]
  · intro l d
    cases l
    case clean => exact ⟨_, rfl⟩
    case modern => exact ⟨_, List.append_nil _⟩
    case executive => exact ⟨_, List.append_nil _⟩
    case minimal => exact ⟨_, rfl⟩
    case classic => exact ⟨_, rfl⟩
  · intro l d
    cases l <;>
      simp [layoutSections, List.filter_append, filter_stdBlock,
        filter_map_custom, customRendered]

/-- C8: every theme-layout value outside the five recognized names selects
the classic (default) branch; a layout key that is still undefined after
the default merge (an explicitly-undefined prop value survives the spread)
also falls through to the classic branch; and branch selection is total —
every merged layout value selects exactly one branch. -/
theorem layout_fallback :
    (∀ s : String,
      s ∉ ["clean", "classic", "modern", "executive", "minimal"] →
        selectBranch (mergedLayout (.str s)) = Layout.classic)
    ∧ selectBranch (mergedLayout .undefined) = Layout.classic
    ∧ (∀ p : LayoutProp, ∃! b : Layout, selectBranch (mergedLayout p) = b) := by
  refine ⟨?_, rfl, fun p => ⟨_, rfl, fun y hy => hy.symm⟩⟩
  intro s hs
  simp only [List.mem_cons, List.mem_singleton, not_or] at hs
  obtain ⟨h1, h2, h3, h4, h5⟩ := hs
  simp [mergedLayout, selectBranch, h1, h3, h4, h5]

theorem layout_fallback_witness :
    "nonexistent" ∉ (["clean", "classic", "modern", "executive", "minimal"] : List String)
    ∧ selectBranch (mergedLayout (.str "nonexistent")) = Layout.classic :=
  ⟨by decide, layout_fallback.1 "nonexistent" (by decide)⟩

/- helper lemmas for the dynamic never-throws analysis -/

theorem ok_bind {α β : Type} (a : α) (k : α → Except String β) :
    (Except.ok a >>= k) = k a := rfl

theorem strOrFalsy_or_default {a : JsVal} (h : strOrFalsyV a = true) :
    ∃ s, jsOrV a (.str "") = .str s := by
  cases a with
  | str s =>
    by_cases hs : s = ""
    · exact ⟨"", by simp [jsOrV, truthy, hs]⟩
    · exact ⟨s, by simp [jsOrV, truthy, hs]⟩
  | null => exact ⟨"", rfl⟩
  | undefined => exact ⟨"", rfl⟩
  | num n => simp [strOrFalsyV] at h
  | bool b => simp [strOrFalsyV] at h
  | arr xs => simp [strOrFalsyV] at h
  | obj fs => simp [strOrFalsyV] at h

theorem strOrFalsy_jsOrV {a b : JsVal} (ha : strOrFalsyV a = true)
    (hb : strOrFalsyV b = true) : strOrFalsyV (jsOrV a b) = true := by
  rw [jsOrV]
  split <;> assumption

theorem jsSubstring_or_ok {v : JsVal} (h : strOrFalsyV v = true) (n : Nat) :
    ∃ s, jsSubstringV (jsOrV v (.str "")) n = .ok s := by
  obtain ⟨s, hs⟩ := strOrFalsy_or_default h
  exact ⟨jsSubstring s n, by rw [hs]; rfl⟩

theorem pi_resolve {p : JsVal} (h : piValOK p = true) :
    ∃ pfs, jsOrV p (.obj []) = .obj pfs
      ∧ strOrFalsyV (objGet pfs "summary") = true
      ∧ strOrFalsyV (objGet pfs "photo") = true
      ∧ strOrFalsyV (objGet pfs "title") = true
      ∧ strOrFalsyV (objGet pfs "jobTitle") = true := by
  cases p with
  | null => exact ⟨[], rfl, rfl, rfl, rfl, rfl⟩
  | undefined => exact ⟨[], rfl, rfl, rfl, rfl, rfl⟩
  | obj pfs =>
    simp only [piValOK, Bool.and_eq_true] at h
    exact ⟨pfs, rfl, h.1.1.1, h.1.1.2, h.1.2, h.2⟩
  | str s => simp [piValOK] at h
  | num n => simp [piValOK] at h
  | bool b => simp [piValOK] at h
  | arr xs => simp [piValOK] at h

theorem expsValOK_jsOrV {a b : JsVal} (ha : expsValOK a = true)
    (hb : expsValOK b = true) : expsValOK (jsOrV a b) = true := by
  rw [jsOrV]
  split <;> assumption

theorem exps_or_arr {c : JsVal} (h : expsValOK c = true) :
    ∃ xs, jsOrV c (.arr []) = .arr xs ∧ xs.all expElemOK = true := by
  cases c with
  | arr xs => exact ⟨xs, rfl, h⟩
  | null => exact ⟨[], rfl, rfl⟩
  | undefined => exact ⟨[], rfl, rfl⟩
  | str s => simp [expsValOK] at h
  | num n => simp [expsValOK] at h
  | bool b => simp [expsValOK] at h
  | obj fs => simp [expsValOK] at h

theorem pure_ok {α : Type} (a : α) : (pure a : Except String α) = Except.ok a := rfl

theorem descs_ok {xs : List JsVal} (h : xs.all expElemOK = true) :
    ∃ r, descsOf xs = Except.ok r := by
  induction xs with
  | nil => exact ⟨[], rfl⟩
  | cons e t ih =>
    simp only [List.all_cons, Bool.and_eq_true] at h
    obtain ⟨r, hr⟩ := ih h.2
    cases e with
    | obj efs =>
      obtain ⟨s, hs⟩ := jsSubstring_or_ok (v := objGet efs "description") h.1 200
      refine ⟨s :: r, ?_⟩
      simp [descsOf, jsGet, hs, hr, ok_bind, pure_ok]
    | null => simp [expElemOK] at h
    | undefined => simp [expElemOK] at h
    | str s => simp [expElemOK] at h
    | num n => simp [expElemOK] at h
    | bool b => simp [expElemOK] at h
    | arr ys => simp [expElemOK] at h

theorem all_take {xs : List JsVal} (n : Nat) (h : xs.all expElemOK = true) :
    (xs.take n).all expElemOK = true := by
  simp only [List.all_eq_true] at h ⊢
  intro x hx
  exact h x (List.take_subset n xs hx)

theorem detect_ok {fs : List (String × JsVal)} (h : wfDoc (.obj fs) = true) :
    ∃ b, detectGermanDyn (.obj fs) = .ok b := by
  simp only [wfDoc, Bool.and_eq_true] at h
  obtain ⟨⟨⟨⟨hpi0, hps⟩, hpp⟩, he1⟩, he2⟩ := h
  obtain ⟨pfs, hpi, hsum, hph, hti, hjt⟩ := pi_resolve hpi0
  obtain ⟨ssum, hssum⟩ := jsSubstring_or_ok (strOrFalsy_jsOrV hsum hps) 400
  obtain ⟨xs, hxs, hall⟩ := exps_or_arr (expsValOK_jsOrV he1 he2)
  obtain ⟨r, hr⟩ := descs_ok (all_take 2 hall)
  simp only [detectGermanDyn, jsGet, ok_bind, hpi, hssum, hxs, jsFirstTwo, hr, pure_ok]
  exact ⟨_, rfl⟩

theorem photo_ok {a b : JsVal} (base : String) (ha : strOrFalsyV a = true)
    (hb : strOrFalsyV b = true) :
    ∃ r, resolvePhotoDyn base (jsOrV a b) = .ok r := by
  have h := strOrFalsy_jsOrV ha hb
  cases hc : jsOrV a b with
  | str s =>
    by_cases hs : s = ""
    · subst hs
      exact ⟨none, rfl⟩
    · exact ⟨resolvePhoto base s, by simp [resolvePhotoDyn, truthy, hs]⟩
  | null => exact ⟨none, rfl⟩
  | undefined => exact ⟨none, rfl⟩
  | num n => rw [hc] at h; simp [strOrFalsyV] at h
  | bool b' => rw [hc] at h; simp [strOrFalsyV] at h
  | arr ys => rw [hc] at h; simp [strOrFalsyV] at h
  | obj gs => rw [hc] at h; simp [strOrFalsyV] at h

/-- C9 counterexample: a document whose `personal_info.summary` is a number
(a wrong-typed field) makes `detectGerman` call `substring` on a number,
raising a `TypeError`: normalization and rendering do not complete. -/
theorem neverThrows_counterexample :
    normalizeDyn dBadSummary "http://localhost:8000"
      = .error "TypeError: v.substring is not a function"
    ∧ detectGermanDyn dBadSummary
      = .error "TypeError: v.substring is not a function"
    ∧ isOkE (normalizeDyn dBadSummary "http://localhost:8000") = false :=
  ⟨rfl, rfl, rfl⟩

/-- C9 amended: for every document object whose present fields are absent,
null, or of the shapes the code handles (strings in the text-field
positions it calls string methods on, arrays of objects as experience
collections, any value at all for skills and the remaining fields), the
normalization-and-detection prelude completes without throwing, every
access degrading to a default; the empty document `{}` normalizes
successfully and renders the placeholder "Your Name" for the name.
Wrong-typed values in the method-bearing positions (see the
counterexample) can still throw. -/
theorem neverThrows_amended :
    (∀ (v : JsVal) (base : String), wfDoc v = true → isOkE (normalizeDyn v base) = true)
    ∧ (∀ base : String, normalizeDyn (.obj []) base = .ok emptyDocView)
    ∧ renderedNameDyn emptyDocView = "Your Name" := by
  refine ⟨?_, fun base => rfl, rfl⟩
  intro v base h
  cases v with
  | obj fs =>
    have hw := h
    simp only [wfDoc, Bool.and_eq_true] at hw
    obtain ⟨⟨⟨⟨hpi0, hps⟩, hpp⟩, he1⟩, he2⟩ := hw
    obtain ⟨pfs, hpi, hsum, hph, hti, hjt⟩ := pi_resolve hpi0
    obtain ⟨rph, hrph⟩ := photo_ok base hph hpp
    obtain ⟨g, hg⟩ := detect_ok h
    simp [normalizeDyn, jsGet, hpi, hrph, hg, ok_bind, isOkE]
  | null => simp [wfDoc] at h
  | undefined => simp [wfDoc] at h
  | str s => simp [wfDoc] at h
  | num n => simp [wfDoc] at h
  | bool b => simp [wfDoc] at h
  | arr xs => simp [wfDoc] at h

theorem neverThrows_amended_witness :
    wfDoc dGoodExample = true
    ∧ isOkE (normalizeDyn dGoodExample "http://localhost:8000") = true :=
  ⟨by decide, neverThrows_amended.1 dGoodExample "http://localhost:8000" (by decide)⟩

end CVPreview
